import Mathlib

/-!
Verification of the messenger465 client transport layer
(`messenger465_client.py`): request framing, XOR checksum,
stop-and-wait retransmission with a one-bit sequence number,
response validation, and fetch-response parsing.

The Python code is shallowly embedded: bytes are `List Nat` (each
element a byte value), Python `str` values are `List Char` / `String`,
`bytes.decode()` is modelled by an executable strict UTF-8 decoder, and
the network is modelled by a list of per-attempt `select` outcomes
(either a timeout or an arriving datagram).  A run of `sendRequest`
either returns normally (a payload string or the fixed failure
sentinel) or aborts with an uncaught exception (`Outcome.fault`,
covering `UnicodeDecodeError` from `.decode()` and `IndexError` from
`msg[1]`).
-/

namespace Messenger465

/-- UTF-8 encoding of a single character, as Python `str.encode` produces
for each code point (arithmetic formulation of the standard byte layout). -/
def utf8Bytes (c : Char) : List Nat :=
  let n := c.toNat
  if n < 0x80 then [n]
  else if n < 0x800 then [0xC0 + n / 64, 0x80 + n % 64]
  else if n < 0x10000 then [0xE0 + n / 4096, 0x80 + n / 64 % 64, 0x80 + n % 64]
  else [0xF0 + n / 262144, 0x80 + n / 4096 % 64, 0x80 + n / 64 % 64, 0x80 + n % 64]

/-- UTF-8 encoding of a character sequence. -/
def encodeChars : List Char → List Nat
  | [] => []
  | c :: cs => utf8Bytes c ++ encodeChars cs

/-- Python `data.encode()`: UTF-8 bytes of a string. -/
def strBytes (s : String) : List Nat := encodeChars s.data

/-- Decode one UTF-8 code point whose lead byte is `b` and whose
remaining input is `bs`, as Python's strict `bytes.decode()` does:
stray or missing continuation bytes, overlong encodings, surrogates and
values above U+10FFFF are rejected.  Returns the code point and the
unconsumed input. -/
def utf8DecodeOne (b : Nat) (bs : List Nat) : Option (Nat × List Nat) :=
  if b < 0x80 then some (b, bs)
  else if b < 0xC2 then none
  else if b < 0xE0 then
    match bs with
    | b1 :: bs2 =>
      if 0x80 ≤ b1 ∧ b1 < 0xC0 then
        some ((b - 0xC0) * 64 + (b1 - 0x80), bs2)
      else none
    | [] => none
  else if b < 0xF0 then
    match bs with
    | b1 :: b2 :: bs3 =>
      if (0x80 ≤ b1 ∧ b1 < 0xC0) ∧ (0x80 ≤ b2 ∧ b2 < 0xC0) ∧
          (b = 0xE0 → 0xA0 ≤ b1) ∧ (b = 0xED → b1 < 0xA0) then
        some ((b - 0xE0) * 4096 + (b1 - 0x80) * 64 + (b2 - 0x80), bs3)
      else none
    | _ => none
  else if b < 0xF5 then
    match bs with
    | b1 :: b2 :: b3 :: bs4 =>
      if (0x80 ≤ b1 ∧ b1 < 0xC0) ∧ (0x80 ≤ b2 ∧ b2 < 0xC0) ∧
          (0x80 ≤ b3 ∧ b3 < 0xC0) ∧
          (b = 0xF0 → 0x90 ≤ b1) ∧ (b = 0xF4 → b1 < 0x90) then
        some ((b - 0xF0) * 262144 + (b1 - 0x80) * 4096 +
          (b2 - 0x80) * 64 + (b3 - 0x80), bs4)
      else none
    | _ => none
  else none

/-- Decode a whole UTF-8 byte sequence, one code point at a time.  Each
code point consumes at least one byte, so fuel equal to the input length
always suffices; the fuel argument only makes the recursion structural. -/
def utf8DecodeLoop : Nat → List Nat → Option (List Char)
  | _, [] => some []
  | 0, _ :: _ => none
  | fuel + 1, b :: bs =>
    match utf8DecodeOne b bs with
    | none => none
    | some (n, rest) => (utf8DecodeLoop fuel rest).map (fun cs => Char.ofNat n :: cs)

/-- Python `bs.decode()` on a received datagram. -/
def utf8Decode (bs : List Nat) : Option (List Char) := utf8DecodeLoop bs.length bs

/-- `self.seq = b'0'` in `MessageBoardNetwork.__init__`: the byte value of
the sequence bit of a freshly constructed transport (ASCII `'0'` = 48). -/
def initSeq : Nat := 48

/-- `MessageBoardNetwork.nextSeq`: toggle the stored sequence byte between
`b'0'` (48) and `b'1'` (49). -/
def nextSeq (seq : Nat) : Nat := if seq = 48 then 49 else 48

/-- The XOR fold of a byte sequence (the spec's checksum function). -/
def xorFold (bytes : List Nat) : Nat := bytes.foldl (fun a b => a ^^^ b) 0

/-- `MessageBoardNetwork.generateHeader`: `b'C' + seq + bytes([checksum])`
where checksum is the XOR accumulation over `databytes`. -/
def generateHeader (seq : Nat) (databytes : List Nat) : List Nat :=
  let checksum := databytes.foldl (fun a b => a ^^^ b) 0
  67 :: seq :: [checksum]

/-- `MessageBoardNetwork.generateRequest`: header followed by the UTF-8
encoded command string. -/
def generateRequest (seq : Nat) (data : String) : List Nat :=
  let databytes := strBytes data
  generateHeader seq databytes ++ databytes

/-- Outcome of one `select` call inside an attempt of `sendRequest`:
either nothing arrived before the deadline, or a datagram arrived. -/
inductive Reply where
  | timeout : Reply
  | datagram : List Nat → Reply
deriving DecidableEq

/-- How a run of `sendRequest` ends: a normal `return msg[3:]`, the
normal `return "ERROR server does not respond"`, or an uncaught
exception escaping the function. -/
inductive Outcome where
  | success : List Char → Outcome
  | unresponsive : Outcome
  | fault : Outcome
deriving DecidableEq

/-- Observable result of a run of `sendRequest`: how it ended, the value
of `self.seq` afterwards, and the list of datagrams transmitted by
`self.socket.sendto`, in order. -/
structure SendResult where
  outcome : Outcome
  seqAfter : Nat
  transmitted : List (List Nat)
deriving DecidableEq

/-- What `sendRequest` does with one received datagram `bs` when the
current sequence byte is `seq`: `msg = bs.decode()` (a failure raises),
`msg[1]` (out of range raises), compared against `self.seq.decode()`;
on a match the payload `msg[3:]` is accepted, otherwise the datagram is
ignored. -/
inductive Verdict where
  | accept : List Char → Verdict
  | reject : Verdict
  | crash : Verdict
deriving DecidableEq

/-- The decode / index / compare steps of `sendRequest` on one datagram. -/
def classify (seq : Nat) (bs : List Nat) : Verdict :=
  match utf8Decode bs with
  | none => Verdict.crash
  | some msg =>
    match msg.get? 1 with
    | none => Verdict.crash
    | some c =>
      if c = Char.ofNat seq then Verdict.accept (msg.drop 3) else Verdict.reject

/-- The retry loop body of `MessageBoardNetwork.sendRequest`: one
iteration per remaining attempt (`fuel`), consuming per-attempt `select`
outcomes positionally from `replies` (an exhausted list means no datagram
arrives, i.e. timeout). -/
def sendLoop (request : List Nat) : Nat → List (List Nat) → List Reply → Nat → SendResult
  | seq, tx, _, 0 => ⟨Outcome.unresponsive, seq, tx⟩
  | seq, tx, replies, fuel + 1 =>
    match replies.headD Reply.timeout with
    | Reply.timeout => sendLoop request seq (tx ++ [request]) replies.tail fuel
    | Reply.datagram bs =>
      match classify seq bs with
      | Verdict.crash => ⟨Outcome.fault, seq, tx ++ [request]⟩
      | Verdict.accept payload => ⟨Outcome.success payload, nextSeq seq, tx ++ [request]⟩
      | Verdict.reject => sendLoop request seq (tx ++ [request]) replies.tail fuel

/-- `MessageBoardNetwork.sendRequest`, run with sequence byte `seq`,
`self.retries = retries`, against a network whose attempt-by-attempt
`select` outcomes are `replies`. -/
def sendRequest (request : List Nat) (seq retries : Nat) (replies : List Reply) : SendResult :=
  sendLoop request seq [] replies retries

/-- The fixed failure string returned when all retries are exhausted. -/
def failureSentinel : String := "ERROR server does not respond"

/-- The string value a run of `sendRequest` returns to its caller, if it
returns at all (`none` when the run ends in an uncaught exception). -/
def returnString (r : SendResult) : Option (List Char) :=
  match r.outcome with
  | Outcome.success p => some p
  | Outcome.unresponsive => some failureSentinel.data
  | Outcome.fault => none

/-- `MessageBoardNetwork.getMessages`: build the `"GET"` request and send it. -/
def getMessages (seq retries : Nat) (replies : List Reply) : SendResult :=
  sendRequest (generateRequest seq "GET") seq retries replies

/-- `self.post.format(user, message)` with `self.post = "POST {}::{}"`. -/
def postFormat (user message : String) : String :=
  "POST " ++ user ++ "::" ++ message

/-- `MessageBoardNetwork.postMessage`: build the `"POST user::message"`
request and send it. -/
def postMessage (user message : String) (seq retries : Nat) (replies : List Reply) : SendResult :=
  sendRequest (generateRequest seq (postFormat user message)) seq retries replies

/-- The `select` outcome seen by attempt `t` (0-based) for a given
environment list: missing entries mean a timeout. -/
def attemptAt (replies : List Reply) (t : Nat) : Reply :=
  (replies.get? t).getD Reply.timeout

/-- A `select` outcome delivers a datagram that `sendRequest` would accept
for sequence byte `seq`: it decodes, has a character at index 1, and that
character equals the decoded sequence byte. -/
def replyMatches (seq : Nat) : Reply → Bool
  | Reply.timeout => false
  | Reply.datagram bs =>
    match classify seq bs with
    | Verdict.accept _ => true
    | _ => false

/-- A `select` outcome delivers a datagram on which `sendRequest` raises:
either `.decode()` fails or the decoded string has no index 1. -/
def replyFaults : Reply → Bool
  | Reply.timeout => false
  | Reply.datagram bs =>
    match utf8Decode bs with
    | none => true
    | some msg => (msg.get? 1).isNone

/-- Python `" ".join(pieces)`. -/
def joinSpace : List (List Char) → List Char
  | [] => []
  | [x] => x
  | x :: y :: rest => x ++ ' ' :: joinSpace (y :: rest)

/-- Python `s.split("::")`: left-to-right scan cutting at each
non-overlapping occurrence of two consecutive colons; `acc` holds the
reversed characters of the piece being scanned. -/
def splitDCAux : List Char → List Char → List (List Char)
  | acc, [] => [acc.reverse]
  | acc, [c] => [(c :: acc).reverse]
  | acc, c :: d :: rest =>
    if c = ':' ∧ d = ':' then acc.reverse :: splitDCAux [] rest
    else splitDCAux (c :: acc) (d :: rest)

/-- Python `s.split("::")` on a character list. -/
def splitDC (s : List Char) : List (List Char) := splitDCAux [] s

/-- The stride-3 loop of `split_messages`: `" ".join(m[i:i+3])` for
`i = 0, 3, 6, ...`, keeping a final slice of fewer than 3 tokens. -/
def groupJoin : List (List Char) → List (List Char)
  | [] => []
  | [a] => [joinSpace [a]]
  | [a, b] => [joinSpace [a, b]]
  | a :: b :: c :: rest => joinSpace [a, b, c] :: groupJoin rest

/-- `MessageBoardController.split_messages`: drop the first three
characters of the raw response string, split on `"::"`, and join each
consecutive group of three tokens with single spaces. -/
def split_messages (raw : List Char) : List (List Char) :=
  groupJoin (splitDC (raw.drop 3))

/-- A token contains no colon character (so `"::"` cannot occur in or
across it). -/
def colonFree (t : List Char) : Prop := ∀ x ∈ t, x ≠ ':'

instance (t : List Char) : Decidable (colonFree t) := by
  unfold colonFree; infer_instance


lemma char_range (c : Char) :
    c.toNat < 0xD800 ∨ (0xE000 ≤ c.toNat ∧ c.toNat < 0x110000) := c.valid

lemma utf8DecodeOne_ascii (b : Nat) (hb : b < 0x80) (bs : List Nat) :
    utf8DecodeOne b bs = some (b, bs) := by
  unfold utf8DecodeOne
  rw [if_pos hb]

lemma utf8DecodeOne_two (b b1 : Nat) (hb : 0xC2 ≤ b) (hb2 : b < 0xE0)
    (h1 : 0x80 ≤ b1) (h2 : b1 < 0xC0) (bs : List Nat) :
    utf8DecodeOne b (b1 :: bs) = some ((b - 0xC0) * 64 + (b1 - 0x80), bs) := by
  unfold utf8DecodeOne
  rw [if_neg (by omega), if_neg (by omega), if_pos hb2]
  dsimp only
  rw [if_pos (⟨h1, h2⟩ : 0x80 ≤ b1 ∧ b1 < 0xC0)]

lemma utf8DecodeOne_three (b b1 b2 : Nat) (hb : 0xE0 ≤ b) (hb2 : b < 0xF0)
    (h1 : 0x80 ≤ b1) (h1b : b1 < 0xC0) (h2 : 0x80 ≤ b2) (h2b : b2 < 0xC0)
    (hE0 : b = 0xE0 → 0xA0 ≤ b1) (hED : b = 0xED → b1 < 0xA0) (bs : List Nat) :
    utf8DecodeOne b (b1 :: b2 :: bs) =
      some ((b - 0xE0) * 4096 + (b1 - 0x80) * 64 + (b2 - 0x80), bs) := by
  unfold utf8DecodeOne
  rw [if_neg (by omega), if_neg (by omega), if_neg (by omega), if_pos hb2]
  dsimp only
  rw [if_pos (⟨⟨h1, h1b⟩, ⟨h2, h2b⟩, hE0, hED⟩ :
    (0x80 ≤ b1 ∧ b1 < 0xC0) ∧ (0x80 ≤ b2 ∧ b2 < 0xC0) ∧
      (b = 0xE0 → 0xA0 ≤ b1) ∧ (b = 0xED → b1 < 0xA0))]

lemma utf8DecodeOne_four (b b1 b2 b3 : Nat) (hb : 0xF0 ≤ b) (hb2 : b < 0xF5)
    (h1 : 0x80 ≤ b1) (h1b : b1 < 0xC0) (h2 : 0x80 ≤ b2) (h2b : b2 < 0xC0)
    (h3 : 0x80 ≤ b3) (h3b : b3 < 0xC0)
    (hF0 : b = 0xF0 → 0x90 ≤ b1) (hF4 : b = 0xF4 → b1 < 0x90) (bs : List Nat) :
    utf8DecodeOne b (b1 :: b2 :: b3 :: bs) =
      some ((b - 0xF0) * 262144 + (b1 - 0x80) * 4096 + (b2 - 0x80) * 64 + (b3 - 0x80), bs) := by
  unfold utf8DecodeOne
  rw [if_neg (by omega), if_neg (by omega), if_neg (by omega), if_neg (by omega), if_pos hb2]
  dsimp only
  rw [if_pos (⟨⟨h1, h1b⟩, ⟨h2, h2b⟩, ⟨h3, h3b⟩, hF0, hF4⟩ :
    (0x80 ≤ b1 ∧ b1 < 0xC0) ∧ (0x80 ≤ b2 ∧ b2 < 0xC0) ∧ (0x80 ≤ b3 ∧ b3 < 0xC0) ∧
      (b = 0xF0 → 0x90 ≤ b1) ∧ (b = 0xF4 → b1 < 0x90))]

lemma decodeOne_utf8Bytes (c : Char) (bs : List Nat) :
    ∃ b rest, utf8Bytes c = b :: rest ∧ 1 ≤ (utf8Bytes c).length ∧
      utf8DecodeOne b (rest ++ bs) = some (c.toNat, bs) := by
  have hv := char_range c
  by_cases h1 : c.toNat < 0x80
  · refine ⟨c.toNat, [], by simp [utf8Bytes, h1], by simp [utf8Bytes, h1], ?_⟩
    rw [List.nil_append, utf8DecodeOne_ascii _ h1]
  · by_cases h2 : c.toNat < 0x800
    · refine ⟨0xC0 + c.toNat / 64, [0x80 + c.toNat % 64], by simp [utf8Bytes, h1, h2],
        by simp [utf8Bytes, h1, h2], ?_⟩
      have harg : (0xC0 + c.toNat / 64 - 0xC0) * 64 + (0x80 + c.toNat % 64 - 0x80) =
          c.toNat := by omega
      rw [List.cons_append, List.nil_append,
        utf8DecodeOne_two (0xC0 + c.toNat / 64) (0x80 + c.toNat % 64)
          (by omega) (by omega) (by omega) (by omega), harg]
    · by_cases h3 : c.toNat < 0x10000
      · refine ⟨0xE0 + c.toNat / 4096, [0x80 + c.toNat / 64 % 64, 0x80 + c.toNat % 64],
          by simp [utf8Bytes, h1, h2, h3], by simp [utf8Bytes, h1, h2, h3], ?_⟩
        have harg : (0xE0 + c.toNat / 4096 - 0xE0) * 4096 +
            (0x80 + c.toNat / 64 % 64 - 0x80) * 64 + (0x80 + c.toNat % 64 - 0x80) =
            c.toNat := by omega
        rw [List.cons_append, List.cons_append, List.nil_append,
          utf8DecodeOne_three (0xE0 + c.toNat / 4096) (0x80 + c.toNat / 64 % 64)
            (0x80 + c.toNat % 64) (by omega) (by omega) (by omega) (by omega) (by omega)
            (by omega) (by omega) (by omega), harg]
      · refine ⟨0xF0 + c.toNat / 262144,
          [0x80 + c.toNat / 4096 % 64, 0x80 + c.toNat / 64 % 64, 0x80 + c.toNat % 64],
          by simp [utf8Bytes, h1, h2, h3], by simp [utf8Bytes, h1, h2, h3], ?_⟩
        have harg : (0xF0 + c.toNat / 262144 - 0xF0) * 262144 +
            (0x80 + c.toNat / 4096 % 64 - 0x80) * 4096 +
            (0x80 + c.toNat / 64 % 64 - 0x80) * 64 + (0x80 + c.toNat % 64 - 0x80) =
            c.toNat := by omega
        rw [List.cons_append, List.cons_append, List.cons_append, List.nil_append,
          utf8DecodeOne_four (0xF0 + c.toNat / 262144) (0x80 + c.toNat / 4096 % 64)
            (0x80 + c.toNat / 64 % 64) (0x80 + c.toNat % 64)
            (by omega) (by omega) (by omega) (by omega) (by omega)
            (by omega) (by omega) (by omega) (by omega) (by omega), harg]

lemma utf8DecodeLoop_encode (cs : List Char) :
    ∀ fuel, (encodeChars cs).length ≤ fuel → utf8DecodeLoop fuel (encodeChars cs) = some cs := by
  induction cs with
  | nil => intro fuel _; rw [encodeChars]; cases fuel <;> rfl
  | cons c cs ih =>
    intro fuel hf
    obtain ⟨b, rest, hsh, hlen, hone⟩ := decodeOne_utf8Bytes c (encodeChars cs)
    rw [encodeChars, hsh, List.cons_append] at hf ⊢
    cases fuel with
    | zero => simp at hf
    | succ f =>
      rw [utf8DecodeLoop, hone]
      dsimp only
      rw [ih f (by simp at hf; omega), Option.map_some', Char.ofNat_toNat]

lemma utf8Decode_strBytes (s : String) : utf8Decode (strBytes s) = some s.data := by
  rw [utf8Decode]
  exact utf8DecodeLoop_encode s.data _ (Nat.le_refl _)

lemma nextSeq_ne (seq : Nat) : nextSeq seq ≠ seq := by
  unfold nextSeq
  split <;> omega

lemma attemptAt_zero (replies : List Reply) :
    attemptAt replies 0 = replies.headD Reply.timeout := by
  cases replies <;> rfl

lemma attemptAt_tail (replies : List Reply) (t : Nat) :
    attemptAt replies.tail t = attemptAt replies (t + 1) := by
  cases replies <;> rfl

lemma classify_crash_iff (seq : Nat) (bs : List Nat) :
    classify seq bs = Verdict.crash ↔ replyFaults (Reply.datagram bs) = true := by
  rw [classify, replyFaults]
  cases hd : utf8Decode bs with
  | none => simp
  | some msg =>
    dsimp only
    cases hg : msg.get? 1 with
    | none => simp
    | some c =>
      dsimp only
      by_cases hc : c = Char.ofNat seq <;> simp [hc]

lemma sendLoop_seq_cases (request : List Nat) (seq : Nat) :
    ∀ (fuel : Nat) (tx : List (List Nat)) (replies : List Reply),
      ((∃ p, (sendLoop request seq tx replies fuel).outcome = Outcome.success p) ∧
        (sendLoop request seq tx replies fuel).seqAfter = nextSeq seq) ∨
      (((sendLoop request seq tx replies fuel).outcome = Outcome.unresponsive ∨
          (sendLoop request seq tx replies fuel).outcome = Outcome.fault) ∧
        (sendLoop request seq tx replies fuel).seqAfter = seq) := by
  intro fuel
  induction fuel with
  | zero => intro tx replies; right; exact ⟨Or.inl rfl, rfl⟩
  | succ fuel ih =>
    intro tx replies
    rw [sendLoop]
    cases hr : replies.headD Reply.timeout with
    | timeout => exact ih _ _
    | datagram bs =>
      dsimp only
      cases hc : classify seq bs with
      | crash => right; exact ⟨Or.inr rfl, rfl⟩
      | accept p => left; exact ⟨⟨p, rfl⟩, rfl⟩
      | reject => exact ih _ _

lemma sendLoop_exhaust (request : List Nat) (seq : Nat) :
    ∀ (fuel : Nat) (tx : List (List Nat)) (replies : List Reply),
      (∀ t, t < fuel → replyMatches seq (attemptAt replies t) = false ∧
        replyFaults (attemptAt replies t) = false) →
      sendLoop request seq tx replies fuel =
        ⟨Outcome.unresponsive, seq, tx ++ List.replicate fuel request⟩ := by
  intro fuel
  induction fuel with
  | zero => intro tx replies _; simp [sendLoop]
  | succ fuel ih =>
    intro tx replies h
    have h0 := h 0 (Nat.succ_pos fuel)
    rw [attemptAt_zero] at h0
    have hrest : ∀ t, t < fuel → replyMatches seq (attemptAt replies.tail t) = false ∧
        replyFaults (attemptAt replies.tail t) = false := by
      intro t ht
      rw [attemptAt_tail]
      exact h (t + 1) (by omega)
    rw [sendLoop]
    cases hr : replies.headD Reply.timeout with
    | timeout =>
      dsimp only
      rw [ih (tx ++ [request]) replies.tail hrest]
      simp [List.replicate_succ]
    | datagram bs =>
      dsimp only
      rw [hr] at h0
      cases hc : classify seq bs with
      | crash =>
        exfalso
        have hf := (classify_crash_iff seq bs).1 hc
        rw [h0.2] at hf
        exact absurd hf (by simp)
      | accept p =>
        exfalso
        have hm := h0.1
        simp [replyMatches, hc] at hm
      | reject =>
        dsimp only
        rw [ih (tx ++ [request]) replies.tail hrest]
        simp [List.replicate_succ]

lemma splitDCAux_sep (acc rest : List Char) :
    splitDCAux acc (':' :: ':' :: rest) = acc.reverse :: splitDCAux [] rest := by
  rw [splitDCAux]
  rw [if_pos ⟨rfl, rfl⟩]

lemma splitDCAux_shift (acc : List Char) (c d : Char) (rest : List Char)
    (h : ¬(c = ':' ∧ d = ':')) :
    splitDCAux acc (c :: d :: rest) = splitDCAux (c :: acc) (d :: rest) := by
  rw [splitDCAux]
  rw [if_neg h]

lemma splitDCAux_token (t : List Char) :
    ∀ acc rest, colonFree t →
      splitDCAux acc (t ++ ':' :: ':' :: rest) = (acc.reverse ++ t) :: splitDCAux [] rest := by
  induction t with
  | nil =>
    intro acc rest _
    rw [List.nil_append, splitDCAux_sep]
    simp
  | cons c t ih =>
    intro acc rest hc
    have hcne : c ≠ ':' := hc c (List.mem_cons_self c t)
    have hct : colonFree t := fun x hx => hc x (List.mem_cons_of_mem c hx)
    cases t with
    | nil =>
      rw [List.cons_append, List.nil_append,
        splitDCAux_shift acc c ':' (':' :: rest) (by intro hand; exact hcne hand.1),
        splitDCAux_sep]
      simp
    | cons e t2 =>
      rw [List.cons_append, List.cons_append,
        splitDCAux_shift acc c e (t2 ++ ':' :: ':' :: rest)
          (by intro hand; exact hcne hand.1)]
      rw [← List.cons_append, ih (c :: acc) rest hct]
      simp

lemma splitDCAux_last (t : List Char) :
    ∀ acc, colonFree t → splitDCAux acc t = [acc.reverse ++ t] := by
  induction t with
  | nil => intro acc _; rw [splitDCAux]; simp
  | cons c t ih =>
    intro acc hc
    have hcne : c ≠ ':' := hc c (List.mem_cons_self c t)
    have hct : colonFree t := fun x hx => hc x (List.mem_cons_of_mem c hx)
    cases t with
    | nil => rw [splitDCAux]; simp
    | cons e t2 =>
      rw [splitDCAux_shift acc c e t2 (by intro hand; exact hcne hand.1)]
      rw [ih (c :: acc) hct]
      simp

lemma utf8DecodeLoop_ascii (fuel b : Nat) (hb : b < 0x80) (bs : List Nat) :
    utf8DecodeLoop (fuel + 1) (b :: bs) =
      (utf8DecodeLoop fuel bs).map (fun cs => Char.ofNat b :: cs) := by
  rw [utf8DecodeLoop, utf8DecodeOne_ascii b hb bs]

lemma utf8Decode_ascii3 (a b c : Nat) (rest : List Nat)
    (ha : a < 0x80) (hb : b < 0x80) (hc : c < 0x80) :
    utf8Decode (a :: b :: c :: rest) =
      (utf8Decode rest).map
        (fun cs => Char.ofNat a :: Char.ofNat b :: Char.ofNat c :: cs) := by
  show utf8DecodeLoop (rest.length + 3) (a :: b :: c :: rest) = _
  rw [utf8DecodeLoop_ascii _ _ ha, utf8DecodeLoop_ascii _ _ hb, utf8DecodeLoop_ascii _ _ hc,
    utf8Decode]
  cases utf8DecodeLoop rest.length rest <;> rfl

lemma classify_ascii_header (seq a b c : Nat) (rest : List Nat)
    (ha : a < 0x80) (hb : b < 0x80) (hc : c < 0x80) :
    classify seq (a :: b :: c :: rest) =
      match utf8Decode rest with
      | none => Verdict.crash
      | some cs =>
        if Char.ofNat b = Char.ofNat seq then Verdict.accept cs else Verdict.reject := by
  rw [classify, utf8Decode_ascii3 a b c rest ha hb hc]
  cases utf8Decode rest with
  | none => rfl
  | some cs => rfl

lemma sendLoop_congr_head (request : List Nat) (seq : Nat) (tx : List (List Nat))
    (fuel : Nat) (bs1 bs2 : List Nat) (tl : List Reply)
    (hcl : classify seq bs1 = classify seq bs2) :
    sendLoop request seq tx (Reply.datagram bs1 :: tl) fuel =
      sendLoop request seq tx (Reply.datagram bs2 :: tl) fuel := by
  cases fuel with
  | zero => rfl
  | succ k =>
    rw [sendLoop]
    conv_rhs => rw [sendLoop]
    dsimp only [List.headD, List.tail]
    rw [hcl]

lemma sendLoop_empty_replies (request : List Nat) (seq : Nat) (tx : List (List Nat))
    (fuel : Nat) :
    sendLoop request seq tx ([] : List Reply) fuel =
      ⟨Outcome.unresponsive, seq, tx ++ List.replicate fuel request⟩ :=
  sendLoop_exhaust request seq fuel tx [] (fun _ _ => ⟨rfl, rfl⟩)

/-- Claim C1: across a completed run of `sendRequest` (one that returns a
value rather than raising), the stored sequence byte after the call
differs from the one before iff the call returned an accepted payload,
and equals it iff the call returned the failure sentinel; every timeout
and every mismatched-sequence reply leaves it unchanged. -/
theorem sendRequest_toggle_iff_success (request : List Nat) (seq retries : Nat)
    (replies : List Reply)
    (hnf : (sendRequest request seq retries replies).outcome ≠ Outcome.fault) :
    ((sendRequest request seq retries replies).seqAfter ≠ seq ↔
      ∃ p, (sendRequest request seq retries replies).outcome = Outcome.success p) ∧
    ((sendRequest request seq retries replies).seqAfter = seq ↔
      (sendRequest request seq retries replies).outcome = Outcome.unresponsive) := by
  unfold sendRequest at hnf ⊢
  rcases sendLoop_seq_cases request seq retries [] replies with ⟨⟨p, hp⟩, hseq⟩ | ⟨hu | hf, hseq⟩
  · constructor
    · constructor
      · intro _; exact ⟨p, hp⟩
      · intro _; rw [hseq]; exact nextSeq_ne seq
    · constructor
      · intro he; rw [hseq] at he; exact absurd he (nextSeq_ne seq)
      · intro hu; exact absurd (hp.symm.trans hu) (by simp)
  · constructor
    · constructor
      · intro hne; exact absurd hseq hne
      · rintro ⟨p, hp⟩; exact absurd (hp.symm.trans hu) (by simp)
    · exact ⟨fun _ => hu, fun _ => hseq⟩
  · exact absurd hf hnf

/-- Witness for C1 at a concrete run (three timeouts). -/
theorem sendRequest_toggle_iff_success_witness :
    ((sendRequest [] 48 3 []).seqAfter ≠ 48 ↔
      ∃ p, (sendRequest [] 48 3 []).outcome = Outcome.success p) ∧
    ((sendRequest [] 48 3 []).seqAfter = 48 ↔
      (sendRequest [] 48 3 []).outcome = Outcome.unresponsive) :=
  sendRequest_toggle_iff_success [] 48 3 [] (by decide)

/-- Claim C2: when every attempt either times out or receives a reply
whose decoded sequence digit mismatches (and none raises), `sendRequest`
transmits the request once per attempt, exactly `retries` times in all,
and returns the fixed failure sentinel string instead of raising. -/
theorem sendRequest_unresponsive_after_retries (request : List Nat) (seq retries : Nat)
    (replies : List Reply) (hretry : 1 ≤ retries)
    (h : ∀ t, t < retries → replyMatches seq (attemptAt replies t) = false ∧
      replyFaults (attemptAt replies t) = false) :
    (sendRequest request seq retries replies).outcome = Outcome.unresponsive ∧
    (sendRequest request seq retries replies).transmitted = List.replicate retries request ∧
    returnString (sendRequest request seq retries replies) = some failureSentinel.data := by
  unfold sendRequest
  rw [sendLoop_exhaust request seq retries [] replies h]
  exact ⟨rfl, by simp, rfl⟩

/-- Witness for C2: a server that never replies, with 3 retries, causes
exactly 3 transmissions and the sentinel. -/
theorem sendRequest_unresponsive_after_retries_witness :
    (sendRequest (generateRequest 48 "GET") 48 3 []).outcome = Outcome.unresponsive ∧
    (sendRequest (generateRequest 48 "GET") 48 3 []).transmitted =
      List.replicate 3 (generateRequest 48 "GET") ∧
    returnString (sendRequest (generateRequest 48 "GET") 48 3 []) =
      some failureSentinel.data :=
  sendRequest_unresponsive_after_retries (generateRequest 48 "GET") 48 3 []
    (by decide) (by decide)

/-- Claim C3: the checksum byte placed at index 2 of every header and
every built request is the XOR fold of the payload bytes, and the
checksum of the empty payload is 0. -/
theorem header_checksum_is_xorFold :
    (∀ seq databytes, (generateHeader seq databytes).get? 2 = some (xorFold databytes)) ∧
    (∀ seq data, (generateRequest seq data).get? 2 = some (xorFold (strBytes data))) ∧
    xorFold [] = 0 ∧
    (∀ seq, (generateHeader seq []).get? 2 = some 0) :=
  ⟨fun _ _ => rfl, fun _ _ => rfl, rfl, fun _ => rfl⟩

/-- Claim C4: every built request is marker byte 67 (ASCII C), then the
stored sequence byte (ASCII 0 or 1 under the sequence invariant), then
the XOR checksum of all following bytes, then the UTF-8 command string;
fetch uses command "GET" and post uses "POST user::text", recovered
exactly by stripping the 3-byte header and decoding. -/
theorem request_wire_format (seq : Nat) (data u t : String) :
    (generateRequest seq data).get? 0 = some 67 ∧
    (generateRequest seq data).get? 1 = some seq ∧
    ((seq = 48 ∨ seq = 49) →
      ((generateRequest seq data).get? 1 = some 48 ∨
        (generateRequest seq data).get? 1 = some 49)) ∧
    (generateRequest seq data).get? 2 =
      some (xorFold ((generateRequest seq data).drop 3)) ∧
    (generateRequest seq data).drop 3 = strBytes data ∧
    utf8Decode ((generateRequest seq "GET").drop 3) = some "GET".data ∧
    (generateRequest seq (postFormat u t)).drop 3 =
      strBytes ("POST " ++ u ++ "::" ++ t) ∧
    utf8Decode ((generateRequest seq (postFormat u t)).drop 3) =
      some ("POST " ++ u ++ "::" ++ t).data := by
  refine ⟨rfl, rfl, ?_, rfl, rfl, ?_, rfl, ?_⟩
  · rintro (h | h) <;> rw [h]
    · left; rfl
    · right; rfl
  · exact utf8Decode_strBytes "GET"
  · exact utf8Decode_strBytes (postFormat u t)

/-- Witness for C4: the sequence-byte disjunct at a concrete request. -/
theorem request_wire_format_witness :
    (generateRequest 48 "GET").get? 1 = some 48 ∨
      (generateRequest 48 "GET").get? 1 = some 49 :=
  (request_wire_format 48 "GET" "alice" "hi").2.2.1 (Or.inl rfl)

/-- Counterexample to claim C5 as stated: `split_messages` removes the
first three characters of the raw string, which for input
"OK" ++ "t1::u1::m1::t2::u2::m2" are "OKt", so the first display line is
"1 u1 m1", not "t1 u1 m1". -/
theorem parse_fetch_example_refuted :
    split_messages ("OK" ++ "t1::u1::m1::t2::u2::m2").data ≠
      ["t1 u1 m1".data, "t2 u2 m2".data] ∧
    split_messages ("OK" ++ "t1::u1::m1::t2::u2::m2").data =
      ["1 u1 m1".data, "t2 u2 m2".data] := by decide

/-- Claim C5 (amended): parsing removes the leading 3 characters of the
raw response, splits the remainder on "::", groups tokens into
consecutive triples and joins each with single spaces in order; on
"OK" ++ "t1::u1::m1::t2::u2::m2" the removed prefix is "OKt", so the
result is ["1 u1 m1", "t2 u2 m2"]. -/
theorem parse_fetch_triples (h0 h1 h2 : Char) (t1 u1 m1 t2 u2 m2 : List Char)
    (hc1 : colonFree t1) (hc2 : colonFree u1) (hc3 : colonFree m1)
    (hc4 : colonFree t2) (hc5 : colonFree u2) (hc6 : colonFree m2) :
    split_messages (h0 :: h1 :: h2 ::
        (t1 ++ ':' :: ':' :: (u1 ++ ':' :: ':' :: (m1 ++ ':' :: ':' ::
          (t2 ++ ':' :: ':' :: (u2 ++ ':' :: ':' :: m2)))))) =
      [t1 ++ ' ' :: (u1 ++ ' ' :: m1), t2 ++ ' ' :: (u2 ++ ' ' :: m2)] := by
  rw [split_messages]
  have h3 : ∀ X : List Char, (h0 :: h1 :: h2 :: X).drop 3 = X := fun _ => rfl
  rw [h3, splitDC,
    splitDCAux_token t1 [] _ hc1, splitDCAux_token u1 [] _ hc2,
    splitDCAux_token m1 [] _ hc3, splitDCAux_token t2 [] _ hc4,
    splitDCAux_token u2 [] _ hc5, splitDCAux_last m2 [] hc6]
  simp [groupJoin, joinSpace]

/-- Witness for C5 (amended) at concrete tokens. -/
theorem parse_fetch_triples_witness :
    split_messages ('O' :: 'K' :: 'x' ::
        ("t1".data ++ ':' :: ':' :: ("u1".data ++ ':' :: ':' :: ("m1".data ++ ':' :: ':' ::
          ("t2".data ++ ':' :: ':' :: ("u2".data ++ ':' :: ':' :: "m2".data)))))) =
      ["t1".data ++ ' ' :: ("u1".data ++ ' ' :: "m1".data),
        "t2".data ++ ' ' :: ("u2".data ++ ' ' :: "m2".data)] :=
  parse_fetch_triples 'O' 'K' 'x' "t1".data "u1".data "m1".data "t2".data "u2".data "m2".data
    (by decide) (by decide) (by decide) (by decide) (by decide) (by decide)

/-- Counterexample to claim C6 as stated: a trailing group of fewer than
3 tokens is not dropped; `split_messages ("OK" ++ "t1::u1")` joins the
leftover pair into "1 u1" instead of yielding the empty list. -/
theorem parse_incomplete_example_refuted :
    split_messages ("OK" ++ "t1::u1").data = ["1 u1".data] ∧
    split_messages ("OK" ++ "t1::u1").data ≠ ([] : List (List Char)) := by decide

/-- Claim C6 (amended): a trailing group of fewer than 3 tokens is kept
and joined with single spaces like every full triple, so parsing
"OK" ++ "t1::u1" yields the one line "1 u1" (prefix "OKt" removed). -/
theorem parse_incomplete_group_kept (h0 h1 h2 : Char) (t u : List Char)
    (hct : colonFree t) (hcu : colonFree u) :
    split_messages (h0 :: h1 :: h2 :: (t ++ ':' :: ':' :: u)) = [t ++ ' ' :: u] := by
  rw [split_messages]
  have h3 : ∀ X : List Char, (h0 :: h1 :: h2 :: X).drop 3 = X := fun _ => rfl
  rw [h3, splitDC, splitDCAux_token t [] _ hct, splitDCAux_last u [] hcu]
  simp [groupJoin, joinSpace]

/-- Witness for C6 (amended) at concrete tokens. -/
theorem parse_incomplete_group_kept_witness :
    split_messages ('O' :: 'K' :: 'x' :: ("t1".data ++ ':' :: ':' :: "u1".data)) =
      ["t1".data ++ ' ' :: "u1".data] :=
  parse_incomplete_group_kept 'O' 'K' 'x' "t1".data "u1".data (by decide) (by decide)

/-- Counterexample to claim C7 as stated: when the server's reply on the
2nd attempt carries the correct sequence digit and payload "OKfoo",
`sendRequest` returns "OKfoo" (the bytes after the 3-byte header), never
the string "foo". -/
theorem second_attempt_scenario_refuted :
    (sendRequest (generateRequest 48 "GET") 48 3
      [Reply.timeout, Reply.datagram ([67, 48, 98] ++ strBytes "OKfoo")]).outcome ≠
      Outcome.success "foo".data := by decide

/-- Claim C7 (amended): if the first attempt times out and the server
replies on the 2nd attempt with the correct sequence digit and payload
"OKfoo", `sendRequest` returns "OKfoo" on the 2nd attempt, transmits
exactly twice, and toggles the sequence byte exactly once. -/
theorem second_attempt_scenario :
    (sendRequest (generateRequest 48 "GET") 48 3
      [Reply.timeout, Reply.datagram ([67, 48, 98] ++ strBytes "OKfoo")]).outcome =
      Outcome.success "OKfoo".data ∧
    (sendRequest (generateRequest 48 "GET") 48 3
      [Reply.timeout, Reply.datagram ([67, 48, 98] ++ strBytes "OKfoo")]).transmitted =
      [generateRequest 48 "GET", generateRequest 48 "GET"] ∧
    (sendRequest (generateRequest 48 "GET") 48 3
      [Reply.timeout, Reply.datagram ([67, 48, 98] ++ strBytes "OKfoo")]).seqAfter =
      nextSeq initSeq ∧
    nextSeq initSeq ≠ initSeq := by decide

/-- Counterexample to claim C8 as stated: two received datagrams that
differ only in their checksum byte (index 2) are not always treated the
same, because that byte takes part in UTF-8 decoding: [67,48,194,160]
decodes and is accepted, while [67,48,65,160] fails to decode and the
run raises instead of deciding. -/
theorem checksum_byte_asymmetry_refuted :
    (sendRequest [] 48 1 [Reply.datagram [67, 48, 194, 160]]).outcome =
      Outcome.success [] ∧
    (sendRequest [] 48 1 [Reply.datagram [67, 48, 65, 160]]).outcome = Outcome.fault ∧
    (sendRequest [] 48 1 [Reply.datagram [67, 48, 194, 160]]).outcome ≠
      (sendRequest [] 48 1 [Reply.datagram [67, 48, 65, 160]]).outcome := by decide

/-- Claim C8 (amended): the received checksum byte is never recomputed or
verified.  A datagram is accepted iff its decoded character at index 1
equals the decoded sequence byte, and for datagrams whose first three
bytes are in the ASCII range (as protocol traffic is), replacing the
checksum byte changes nothing observable: the entire run of
`sendRequest` is identical. -/
theorem checksum_never_verified (request : List Nat) (seq retries : Nat)
    (a b c1 c2 : Nat) (rest : List Nat) (tl : List Reply)
    (ha : a < 128) (hb : b < 128) (hc1 : c1 < 128) (hc2 : c2 < 128) :
    sendRequest request seq retries (Reply.datagram (a :: b :: c1 :: rest) :: tl) =
      sendRequest request seq retries (Reply.datagram (a :: b :: c2 :: rest) :: tl) ∧
    (∀ msg, utf8Decode (a :: b :: c1 :: rest) = some msg → 1 ≤ retries →
      ((∃ p, (sendRequest request seq retries
          [Reply.datagram (a :: b :: c1 :: rest)]).outcome = Outcome.success p) ↔
        msg.get? 1 = some (Char.ofNat seq))) := by
  constructor
  · unfold sendRequest
    exact sendLoop_congr_head request seq [] retries _ _ tl
      (by rw [classify_ascii_header seq a b c1 rest ha hb hc1,
              classify_ascii_header seq a b c2 rest ha hb hc2])
  · intro msg hdec hret
    rw [utf8Decode_ascii3 a b c1 rest ha hb hc1] at hdec
    cases hcs : utf8Decode rest with
    | none => rw [hcs] at hdec; exact absurd hdec (by simp)
    | some cs =>
      rw [hcs] at hdec
      have hmsg : Char.ofNat a :: Char.ofNat b :: Char.ofNat c1 :: cs = msg :=
        Option.some.inj hdec
      have hget1 : msg.get? 1 = some (Char.ofNat b) := by rw [← hmsg]; rfl
      cases retries with
      | zero => exact absurd hret (by omega)
      | succ k =>
        by_cases hbe : Char.ofNat b = Char.ofNat seq
        · have hclassify : classify seq (a :: b :: c1 :: rest) = Verdict.accept cs := by
            rw [classify_ascii_header seq a b c1 rest ha hb hc1, hcs]
            dsimp only
            rw [if_pos hbe]
          have houtcome : (sendRequest request seq (k + 1)
              [Reply.datagram (a :: b :: c1 :: rest)]).outcome = Outcome.success cs := by
            unfold sendRequest
            rw [sendLoop]
            dsimp only [List.headD, List.tail]
            rw [hclassify]
          constructor
          · intro _; rw [hget1, hbe]
          · intro _; exact ⟨cs, houtcome⟩
        · have hclassify : classify seq (a :: b :: c1 :: rest) = Verdict.reject := by
            rw [classify_ascii_header seq a b c1 rest ha hb hc1, hcs]
            dsimp only
            rw [if_neg hbe]
          have houtcome : (sendRequest request seq (k + 1)
              [Reply.datagram (a :: b :: c1 :: rest)]).outcome = Outcome.unresponsive := by
            unfold sendRequest
            rw [sendLoop]
            dsimp only [List.headD, List.tail]
            rw [hclassify]
            dsimp only
            rw [sendLoop_empty_replies]
          constructor
          · rintro ⟨p, hp⟩
            exact absurd (houtcome.symm.trans hp) (by simp)
          · intro hmq
            exact absurd (Option.some.inj (hget1.symm.trans hmq)) hbe
  
/-- Witness for C8 (amended) at concrete datagrams differing only in the
checksum byte. -/
theorem checksum_never_verified_witness :
    sendRequest [] 48 1 [Reply.datagram [67, 48, 0]] =
      sendRequest [] 48 1 [Reply.datagram [67, 48, 99]] :=
  (checksum_never_verified [] 48 1 67 48 0 99 [] [] (by decide) (by decide) (by decide)
    (by decide)).1

/-- Claim C9: the source has no defensive branch for malformed responses:
an empty datagram or a one-byte datagram makes the indexing of msg[1]
raise, and an undecodable datagram makes decode() raise, so the run
faults instead of returning a displayable status string. -/
theorem malformed_response_faults :
    (sendRequest (generateRequest 48 "GET") 48 3 [Reply.datagram []]).outcome =
      Outcome.fault ∧
    (sendRequest (generateRequest 48 "GET") 48 3 [Reply.datagram [50]]).outcome =
      Outcome.fault ∧
    (sendRequest (generateRequest 48 "GET") 48 3 [Reply.datagram [255, 79, 75]]).outcome =
      Outcome.fault ∧
    returnString (sendRequest (generateRequest 48 "GET") 48 3 [Reply.datagram []]) =
      none := by decide

/-- Claim C10: a fresh transport starts with sequence byte 48 (ASCII 0),
and membership of the sequence byte in {48, 49} is preserved by
`nextSeq`, by every run of `sendRequest`, `getMessages` and
`postMessage`, so the sequence byte written at index 1 of every header is
always ASCII 0 or ASCII 1. -/
theorem seq_byte_invariant :
    initSeq = 48 ∧
    (∀ seq, seq = 48 ∨ seq = 49 → (nextSeq seq = 48 ∨ nextSeq seq = 49)) ∧
    (∀ request seq retries replies, seq = 48 ∨ seq = 49 →
      ((sendRequest request seq retries replies).seqAfter = 48 ∨
        (sendRequest request seq retries replies).seqAfter = 49)) ∧
    (∀ seq retries replies, seq = 48 ∨ seq = 49 →
      ((getMessages seq retries replies).seqAfter = 48 ∨
        (getMessages seq retries replies).seqAfter = 49)) ∧
    (∀ u m seq retries replies, seq = 48 ∨ seq = 49 →
      ((postMessage u m seq retries replies).seqAfter = 48 ∨
        (postMessage u m seq retries replies).seqAfter = 49)) ∧
    (∀ seq databytes, seq = 48 ∨ seq = 49 →
      ((generateHeader seq databytes).get? 1 = some 48 ∨
        (generateHeader seq databytes).get? 1 = some 49)) := by
  have hnext : ∀ seq : Nat, seq = 48 ∨ seq = 49 → (nextSeq seq = 48 ∨ nextSeq seq = 49) := by
    intro seq h
    unfold nextSeq
    rcases h with h | h <;> simp [h]
  have hsend : ∀ (request : List Nat) (seq retries : Nat) (replies : List Reply),
      seq = 48 ∨ seq = 49 →
      ((sendRequest request seq retries replies).seqAfter = 48 ∨
        (sendRequest request seq retries replies).seqAfter = 49) := by
    intro request seq retries replies h
    unfold sendRequest
    rcases sendLoop_seq_cases request seq retries [] replies with ⟨_, hseq⟩ | ⟨_, hseq⟩
    · rw [hseq]; exact hnext seq h
    · rw [hseq]; exact h
  refine ⟨rfl, hnext, hsend, ?_, ?_, ?_⟩
  · intro seq retries replies h
    exact hsend (generateRequest seq "GET") seq retries replies h
  · intro u m seq retries replies h
    exact hsend (generateRequest seq (postFormat u m)) seq retries replies h
  · intro seq db h
    rcases h with h | h <;> rw [h]
    · left; rfl
    · right; rfl

/-- Witness for C10: the sendRequest conjunct at a concrete run. -/
theorem seq_byte_invariant_witness :
    (sendRequest [] 48 3 []).seqAfter = 48 ∨ (sendRequest [] 48 3 []).seqAfter = 49 :=
  seq_byte_invariant.2.2.1 [] 48 3 [] (Or.inl rfl)

end Messenger465
